import Mathlib

/-!
Verification of the request-metadata subsystem of the tigris repository
(`server/request/request.go`): token claim extraction, namespace resolution,
method classification and context accessors, shallowly embedded in Lean.

Go strings are modelled as Lean `String`s (claim payloads are ASCII), byte
slices as `List Nat`, Go errors as `Option`/`Except`, and the process-wide
configuration and the tenant-directory collaborator as explicit parameters.
-/

namespace Tigris

/-! ## Go string splitting (`strings.SplitN` with a one-character separator) -/

/-- Split off the part of `cs` before the first occurrence of `sep`;
`none` when `sep` does not occur. -/
def breakFirst (sep : Char) : List Char → Option (List Char × List Char)
  | [] => none
  | c :: cs =>
    if c = sep then some ([], cs)
    else (breakFirst sep cs).map (fun pq => (c :: pq.1, pq.2))

/-- `strings.SplitN(s, sep, budget+1)` on a one-character separator: `budget`
is the number of splits still allowed; the final part keeps any further
separators. -/
def splitAux (sep : Char) : List Char → Nat → List (List Char)
  | cs, 0 => [cs]
  | cs, Nat.succ k =>
    match breakFirst sep cs with
    | none => [cs]
    | some pq => pq.1 :: splitAux sep pq.2 k

/-! ## Base64 (Go `encoding/base64`, standard alphabet, raw and padded) -/

/-- Value of a standard-alphabet base64 character, `none` for anything else. -/
def b64val (c : Char) : Option Nat :=
  if 'A' ≤ c ∧ c ≤ 'Z' then some (c.toNat - 65)
  else if 'a' ≤ c ∧ c ≤ 'z' then some (c.toNat - 97 + 26)
  else if '0' ≤ c ∧ c ≤ '9' then some (c.toNat - 48 + 52)
  else if c = '+' then some 62
  else if c = '/' then some 63
  else none

/-- Decode one base64 quantum of 2, 3 or 4 characters into 1, 2 or 3 bytes
(trailing bits are dropped, as Go's non-strict decoder does). -/
def decodeB64Group : List Char → Option (List Nat)
  | [a, b] =>
    (b64val a).bind fun va => (b64val b).map fun vb =>
      [(va * 4 + vb / 16) % 256]
  | [a, b, c] =>
    (b64val a).bind fun va => (b64val b).bind fun vb => (b64val c).map fun vc =>
      [(va * 4 + vb / 16) % 256, (vb % 16 * 16 + vc / 4) % 256]
  | [a, b, c, d] =>
    (b64val a).bind fun va => (b64val b).bind fun vb =>
    (b64val c).bind fun vc => (b64val d).map fun vd =>
      [(va * 4 + vb / 16) % 256, (vb % 16 * 16 + vc / 4) % 256, (vc % 4 * 64 + vd) % 256]
  | _ => none

/-- Chunk a character list into groups of four (the last may be shorter). -/
def chunk4 : List Char → List (List Char)
  | [] => []
  | [a] => [[a]]
  | [a, b] => [[a, b]]
  | [a, b, c] => [[a, b, c]]
  | a :: b :: c :: d :: rest => [a, b, c, d] :: chunk4 rest

/-- Go `base64.RawStdEncoding.DecodeString`: unpadded standard alphabet;
newlines are ignored, `=` is not in the alphabet and fails the decode. -/
def decodeRawStd (cs0 : List Char) : Option (List Nat) :=
  let cs := cs0.filter (fun c => c ≠ '\n' ∧ c ≠ '\r')
  ((chunk4 cs).mapM decodeB64Group).map List.flatten

/-- Number of trailing `=` characters. -/
def trailingEq (cs : List Char) : Nat :=
  (cs.reverse.takeWhile (fun c => c = '=')).length

/-- Go `base64.StdEncoding.DecodeString`: padded standard alphabet; the input
length must be a multiple of four with canonical `=` padding at the end only. -/
def decodeStd (cs0 : List Char) : Option (List Nat) :=
  let cs := cs0.filter (fun c => c ≠ '\n' ∧ c ≠ '\r')
  if cs.length % 4 ≠ 0 then none
  else
    let t := trailingEq cs
    let body := cs.take (cs.length - t)
    if t > 2 then none
    else if body.any (fun c => c = '=') then none
    else if t ≠ (4 - body.length % 4) % 4 then none
    else ((chunk4 body).mapM decodeB64Group).map List.flatten

/-- The standard base64 alphabet in index order. -/
def b64alphabet : List Char :=
  "ABCDEFGHIJKLMNOPQRSTUVWXYZabcdefghijklmnopqrstuvwxyz0123456789+/".data

/-- Character at position `n` of the standard base64 alphabet. -/
def b64char (n : Nat) : Char := b64alphabet.getD n 'A'

/-- Go `base64.RawStdEncoding.EncodeToString` on bytes (no padding). -/
def encodeRawStdBytes : List Nat → List Char
  | [] => []
  | [a] => [b64char (a / 4), b64char (a % 4 * 16)]
  | [a, b] => [b64char (a / 4), b64char (a % 4 * 16 + b / 16), b64char (b % 16 * 4)]
  | a :: b :: c :: rest =>
    b64char (a / 4) :: b64char (a % 4 * 16 + b / 16) ::
    b64char (b % 16 * 4 + c / 64) :: b64char (c % 64) :: encodeRawStdBytes rest

/-- Go `base64.StdEncoding.EncodeToString` on bytes (`=`-padded). -/
def encodeStdBytes (bs : List Nat) : List Char :=
  encodeRawStdBytes bs ++ List.replicate ((3 - bs.length % 3) % 3) '='

/-- Bytes of an ASCII string. -/
def strBytes (s : String) : List Nat := s.data.map Char.toNat

/-- Unpadded (raw-std) base64 encoding of an ASCII string, as a string. -/
def encodeRawStd (s : String) : String := String.mk (encodeRawStdBytes (strBytes s))

/-- Padded (standard) base64 encoding of an ASCII string, as a string. -/
def encodeStd (s : String) : String := String.mk (encodeStdBytes (strBytes s))

/-! ## JSON values and a parser, modelling `github.com/buger/jsonparser`

`jsonparser.GetString(data, keys...)` scans the byte slice for the value at
the given key path and succeeds only when that value is a JSON string.  We
model it as parsing the bytes into a `Json` tree followed by a key-path
lookup that requires a string at the end of the path. -/

/-- A JSON value; object fields keep their textual order, numbers keep their
source text (the claim extractor only ever reads strings). -/
inductive Json where
  | null : Json
  | bool (b : Bool) : Json
  | num (repr : String) : Json
  | str (s : String) : Json
  | arr (elems : List Json) : Json
  | obj (fields : List (String × Json)) : Json

/-- The opening-brace character. -/
def lbrace : Char := Char.ofNat 123

/-- The closing-brace character. -/
def rbrace : Char := Char.ofNat 125

/-- JSON whitespace. -/
def isWsChar (c : Char) : Bool := c = ' ' ∨ c = '\t' ∨ c = '\n' ∨ c = '\r'

/-- Drop leading JSON whitespace. -/
def skipWs (cs : List Char) : List Char := cs.dropWhile isWsChar

/-- Parse the body of a JSON string after its opening quote, handling the
single-character escapes; returns the content and the rest of the input. -/
def parseStringBody : List Char → Option (List Char × List Char)
  | [] => none
  | '"' :: rest => some ([], rest)
  | '\\' :: e :: rest =>
    (match e with
     | '"' => some '"'
     | '\\' => some '\\'
     | '/' => some '/'
     | 'n' => some '\n'
     | 't' => some '\t'
     | 'r' => some '\r'
     | 'b' => some (Char.ofNat 8)
     | 'f' => some (Char.ofNat 12)
     | _ => none).bind fun c =>
    (parseStringBody rest).map fun (sr : List Char × List Char) => (c :: sr.1, sr.2)
  | c :: rest =>
    (parseStringBody rest).map fun (sr : List Char × List Char) => (c :: sr.1, sr.2)

/-- Characters that may appear in a JSON number token. -/
def isNumChar (c : Char) : Bool :=
  ('0' ≤ c ∧ c ≤ '9') ∨ c = '-' ∨ c = '+' ∨ c = '.' ∨ c = 'e' ∨ c = 'E'

/-- Parse a JSON number token (kept as its source text). -/
def parseNum (cs : List Char) : Option (Json × List Char) :=
  match cs.takeWhile isNumChar with
  | [] => none
  | ds => some (Json.num (String.mk ds), cs.dropWhile isNumChar)

mutual

/-- Parse one JSON value; `fuel` bounds the recursion depth and is in
practice larger than the input needs. -/
def parseValue : Nat → List Char → Option (Json × List Char)
  | 0, _ => none
  | Nat.succ fuel, cs =>
    match skipWs cs with
    | [] => none
    | c :: rest =>
      if c = lbrace then
        match skipWs rest with
        | c2 :: rest2 =>
          if c2 = rbrace then some (Json.obj [], rest2)
          else (parseMembers fuel rest).map fun fr => (Json.obj fr.1, fr.2)
        | [] => none
      else if c = '[' then
        match skipWs rest with
        | ']' :: rest2 => some (Json.arr [], rest2)
        | _ => (parseElems fuel rest).map fun er => (Json.arr er.1, er.2)
      else if c = '"' then
        (parseStringBody rest).map fun sr => (Json.str (String.mk sr.1), sr.2)
      else
        let cs' := c :: rest
        if ['t', 'r', 'u', 'e'].isPrefixOf cs' then some (Json.bool true, cs'.drop 4)
        else if ['f', 'a', 'l', 's', 'e'].isPrefixOf cs' then some (Json.bool false, cs'.drop 5)
        else if ['n', 'u', 'l', 'l'].isPrefixOf cs' then some (Json.null, cs'.drop 4)
        else parseNum cs'

/-- Parse the members of a JSON object after its opening brace (at least one
member; the empty object is handled by `parseValue`). -/
def parseMembers : Nat → List Char → Option (List (String × Json) × List Char)
  | 0, _ => none
  | Nat.succ fuel, cs =>
    match skipWs cs with
    | '"' :: rest =>
      (parseStringBody rest).bind fun kr =>
      match skipWs kr.2 with
      | ':' :: r2 =>
        (parseValue fuel r2).bind fun vr =>
        match skipWs vr.2 with
        | c :: r4 =>
          if c = ',' then
            (parseMembers fuel r4).map fun fr => ((String.mk kr.1, vr.1) :: fr.1, fr.2)
          else if c = rbrace then some ([(String.mk kr.1, vr.1)], r4)
          else none
        | [] => none
      | _ => none
    | _ => none

/-- Parse the elements of a JSON array after its opening bracket (at least
one element; the empty array is handled by `parseValue`). -/
def parseElems : Nat → List Char → Option (List Json × List Char)
  | 0, _ => none
  | Nat.succ fuel, cs =>
    (parseValue fuel cs).bind fun vr =>
    match skipWs vr.2 with
    | ',' :: r2 => (parseElems fuel r2).map fun er => (vr.1 :: er.1, er.2)
    | ']' :: r2 => some ([vr.1], r2)
    | _ => none

end

/-- Bytes to characters (the claim payloads are ASCII). -/
def bytesToChars (bs : List Nat) : List Char := bs.map Char.ofNat

/-- Parse a whole byte slice as one JSON document. -/
def parseJson (bs : List Nat) : Option Json :=
  let cs := bytesToChars bs
  match parseValue (2 * cs.length + 4) cs with
  | some jr => if skipWs jr.2 = [] then some jr.1 else none
  | none => none

/-- First binding of key `k` in an object's field list. -/
def jLookup : List (String × Json) → String → Option Json
  | [], _ => none
  | f :: fs, k => if f.1 = k then some f.2 else jLookup fs k

/-- Key-path lookup that must end at a JSON string, as
`jsonparser.GetString` requires. -/
def jGet : Json → List String → Option String
  | Json.str s, [] => some s
  | _, [] => none
  | Json.obj fs, k :: ks => (jLookup fs k).bind fun v => jGet v ks
  | _, _ :: _ => none

/-- `jsonparser.GetString(data, path...)` on raw bytes. -/
def jsonGetString (data : List Nat) (path : List String) : Option String :=
  (parseJson data).bind fun j => jGet j path

/-! ## Constants (`request.go` and its collaborators) -/

/-- Vendor claim namespace (`request.go`). -/
def JWTTigrisClaimSpace : String := "https://tigris"

/-- Namespace-code claim key (`request.go`). -/
def NamespaceCode : String := "nc"

/-- Role claim key (`request.go`). -/
def Role : String := "r"

/-- User-email claim key (`request.go`). -/
def UserEmail : String := "ue"

/-- Subject claim key (`request.go`). -/
def Subject : String := "sub"

/-- Modelled from the spec: the unknown-value sentinel string
(`defaults.UnknownValue` of the `server/defaults` package, not under `src/`);
`request.go` itself returns the literal `"unknown"` for a missing token. -/
def UnknownValue : String := "unknown"

/-- Modelled from the spec: the fixed default namespace name
(`defaults.DefaultNamespaceName` of the `server/defaults` package, not under
`src/`). -/
def DefaultNamespaceName : String := "default_namespace"

/-- Modelled from the spec: the observability method-name prefix of the `api`
package (source name `ObservabilityMethodPrefix`, not under `src/`). -/
def ObservabilityMethodPfx : String := "/tigris.observability.v1.Observability/"

/-- Modelled from the spec: the management method-name prefix of the `api`
package (source name `ManagementMethodPrefix`, not under `src/`). -/
def ManagementMethodPfx : String := "/tigris.management.v1.Management/"

/-- Modelled from the spec: `api.ReadMethodName` (not under `src/`). -/
def ReadMethodName : String := "/tigris.v1.Tigris/Read"

/-- Modelled from the spec: `api.SearchMethodName` (not under `src/`). -/
def SearchMethodName : String := "/tigris.v1.Tigris/Search"

/-- Modelled from the spec: `api.ListProjectsMethodName` (not under `src/`). -/
def ListProjectsMethodName : String := "/tigris.v1.Tigris/ListProjects"

/-- Modelled from the spec: `api.ListCollectionsMethodName` (not under `src/`). -/
def ListCollectionsMethodName : String := "/tigris.v1.Tigris/ListCollections"

/-- Modelled from the spec: `api.DescribeCollectionMethodName` (not under `src/`). -/
def DescribeCollectionMethodName : String := "/tigris.v1.Tigris/DescribeCollection"

/-- Modelled from the spec: `api.DescribeDatabaseMethodName` (not under `src/`). -/
def DescribeDatabaseMethodName : String := "/tigris.v1.Tigris/DescribeDatabase"

/-- Modelled from the spec: `api.CreateNamespaceMethodName` (not under `src/`). -/
def CreateNamespaceMethodName : String := ManagementMethodPfx ++ "CreateNamespace"

/-- Modelled from the spec: `api.ListNamespacesMethodName` (not under `src/`). -/
def ListNamespacesMethodName : String := ManagementMethodPfx ++ "ListNamespaces"

/-- Modelled from the spec: `api.DeleteNamespaceMethodName` (not under `src/`). -/
def DeleteNamespaceMethodName : String := ManagementMethodPfx ++ "DeleteNamespace"

/-- Modelled from the spec: `api.VerifyInvitationMethodName` (not under `src/`). -/
def VerifyInvitationMethodName : String := ManagementMethodPfx ++ "VerifyInvitation"

/-- `adminMethods` (`request.go`): the fixed admin method-name set. -/
def adminMethods : List String :=
  [CreateNamespaceMethodName, ListNamespacesMethodName,
   DeleteNamespaceMethodName, VerifyInvitationMethodName]

/-! ## Token claim extraction (`getMetadataFromToken`, `request.go` 343-391) -/

/-- The failure-default quadruple of the claim extractor. -/
def failureDefaults : String × Bool × String × String := (UnknownValue, false, "", "")

/-- The decode step of `getMetadataFromToken` (lines 350-359): unpadded
raw-std base64 first, padded standard base64 only on its failure. -/
def decodeMiddle (part : List Char) : Option (List Nat) :=
  match decodeRawStd part with
  | some b => some b
  | none => decodeStd part

/-- The claim-lookup tail of `getMetadataFromToken` (lines 361-390), applied
to the base64-decoded payload bytes: namespace code under the vendor claim
space with a legacy fallback, then optional user email and role, then the
required top-level subject. -/
def metadataFromDecoded (decodedToken : List Nat) : String × Bool × String × String :=
  let nc :=
    match jsonGetString decodedToken [JWTTigrisClaimSpace, NamespaceCode] with
    | some v => some v
    | none => jsonGetString decodedToken [JWTTigrisClaimSpace ++ "/n", "code"]
  match nc with
  | none => failureDefaults
  | some namespaceCode =>
    let userEmail := (jsonGetString decodedToken [JWTTigrisClaimSpace, UserEmail]).getD ""
    let role := (jsonGetString decodedToken [JWTTigrisClaimSpace, Role]).getD ""
    match jsonGetString decodedToken [Subject] with
    | none => failureDefaults
    | some sub => (namespaceCode, decide (userEmail.length > 0), sub, role)

/-- Decode-then-look-up on the middle token part (`request.go` 350-390). -/
def extractFromMiddle (part1 : List Char) : String × Bool × String × String :=
  match decodeMiddle part1 with
  | none => failureDefaults
  | some decodedToken => metadataFromDecoded decodedToken

/-- `getMetadataFromToken` (`request.go` 343-391): split the token on `.` with
`strings.SplitN(token, ".", 3)`, require three parts, base64-decode the middle
part and look the claims up in it. -/
def getMetadataFromToken (token : String) : String × Bool × String × String :=
  match splitAux '.' token.data 2 with
  | [_, part1, _] => extractFromMiddle part1
  | _ => failureDefaults

/-! ## Header handling and configuration -/

/-- `getTokenFromHeader` (`request.go` 334-340):
`strings.SplitN(header, " ", 2)`; fewer than two parts is an error (`none`). -/
def getTokenFromHeader (header : String) : Option String :=
  match splitAux ' ' header.data 1 with
  | [_, t] => some (String.mk t)
  | _ => none

/-- The two `config.DefaultConfig.Auth` flags the slice reads. -/
structure Config where
  enableNamespaceIsolation : Bool
  authEnabled : Bool
deriving DecidableEq

/-- `types.AccessToken` (the fields this slice reads). -/
structure AccessToken where
  Sub : String
  Namespace : String
deriving DecidableEq

/-- `grpc.MethodInfo`. -/
structure MethodInfo where
  name : String
  isClientStream : Bool
  isServerStream : Bool
deriving DecidableEq

/-- `Metadata` (`request.go` 56-76); the Go field `namespace` is `ns` here
(`namespace` is a Lean keyword). -/
structure Metadata where
  accessToken : Option AccessToken
  serviceName : String
  methodInfo : MethodInfo
  ns : String
  namespaceName : String
  IsHuman : Bool
  project : String
  branch : String
  collection : String
  Sub : String
  Role : String
deriving DecidableEq

/-- A tenant record of the directory collaborator; `name` stands for
`tenant.GetNamespace().Metadata().Name`. -/
structure Tenant where
  name : String
deriving DecidableEq

/-- The tenant directory (`metadata.TenantGetter`): `GetTenant` returns
`(tenant, err)`; `.error` is a non-nil error, `.ok none` a nil tenant. -/
def TenantGetter : Type := String → Except Unit (Option Tenant)

/-- `Metadata.SetNamespace` (`request.go` 229-253), with the process-wide
configuration and the package-global `tenantGetter` passed explicitly. -/
def Metadata.SetNamespace (cfg : Config) (getTenant : TenantGetter)
    (m : Metadata) (ns : String) : Metadata :=
  let m := { m with ns := ns }
  if !cfg.enableNamespaceIsolation && !cfg.authEnabled then
    { m with namespaceName := DefaultNamespaceName }
  else if ns = UnknownValue then
    { m with namespaceName := UnknownValue }
  else
    match getTenant ns with
    | Except.error _ => { m with namespaceName := UnknownValue }
    | Except.ok none => { m with namespaceName := UnknownValue }
    | Except.ok (some tenant) => { m with namespaceName := tenant.name }

/-- A call scope: the value stored under `MetadataCtxKey` (if any) and the
`Authorization` header (`api.GetHeader` yields `""` when absent). -/
structure Context where
  metadataValue : Option Metadata
  authorizationHeader : String

/-- `GetMetadataFromHeader` (`request.go` 394-405). -/
def GetMetadataFromHeader (cfg : Config) (ctx : Context) :
    String × Bool × String × String :=
  if !cfg.enableNamespaceIsolation then (DefaultNamespaceName, false, "", "")
  else
    match getTokenFromHeader ctx.authorizationHeader with
    | none => (DefaultNamespaceName, false, "", "")
    | some token => getMetadataFromToken token

/-! ## Typed errors and context accessors (`request.go` 266-314) -/

/-- Error classes of the `errors` package used here. -/
inductive ErrCode where
  | notFound : ErrCode
  | invalidArgument : ErrCode
deriving DecidableEq

/-- A typed error value. -/
structure TigrisError where
  code : ErrCode
  msg : String
deriving DecidableEq

/-- `errors.NotFound`. -/
def errNotFound (msg : String) : TigrisError := ⟨ErrCode.notFound, msg⟩

/-- `ErrNamespaceNotFound` (`request.go` 266). -/
def ErrNamespaceNotFound : TigrisError := errNotFound "namespace not found"

/-- `GetRequestMetadataFromContext` (`request.go` 268-277). -/
def GetRequestMetadataFromContext (ctx : Context) : Except TigrisError Metadata :=
  match ctx.metadataValue with
  | some md => Except.ok md
  | none => Except.error (errNotFound "Metadata not found")

/-- `GetAccessToken` (`request.go` 279-287). -/
def GetAccessToken (ctx : Context) : Except TigrisError AccessToken :=
  match ctx.metadataValue with
  | some md =>
    match md.accessToken with
    | some t => Except.ok t
    | none => Except.error (errNotFound "Access token not found")
  | none => Except.error (errNotFound "Access token not found")

/-- `GetCurrentSub` (`request.go` 289-295). -/
def GetCurrentSub (ctx : Context) : Except TigrisError String :=
  match GetAccessToken ctx with
  | Except.error e => Except.error e
  | Except.ok tkn => Except.ok tkn.Sub

/-- `GetNamespace` (`request.go` 297-305). -/
def GetNamespace (ctx : Context) : Except TigrisError String :=
  match ctx.metadataValue with
  | some md => Except.ok md.ns
  | none => Except.error ErrNamespaceNotFound

/-- `IsHumanUser` (`request.go` 307-314). -/
def IsHumanUser (ctx : Context) : Bool :=
  match ctx.metadataValue with
  | some md => md.IsHuman
  | none => false

/-! ## Method classification (`request.go` 330-332, 407-431) -/

/-- `IsAdminApi` (`request.go` 330-332). -/
def IsAdminApi (fullMethodName : String) : Bool :=
  adminMethods.contains fullMethodName

/-- `isRead` (`request.go` 407-427). -/
def isRead (name : String) : Bool :=
  if ObservabilityMethodPfx.isPrefixOf name then true
  else if ManagementMethodPfx.isPrefixOf name then true
  else if name = ReadMethodName ∨ name = SearchMethodName then true
  else if name = ListCollectionsMethodName ∨ name = ListProjectsMethodName then true
  else if name = DescribeCollectionMethodName ∨ name = DescribeDatabaseMethodName then true
  else false

/-- `isWrite` (`request.go` 429-431). -/
def isWrite (name : String) : Bool := !(isRead name)

/-! ## Payload-derived routing (`GetProjectAndBranchAndColl`, 192-215) -/

/-- Modelled from the spec: the capabilities a request payload may expose.
The Go code type-asserts `req any` against the `api` package interfaces
`RequestWithProjectAndCollection` and `RequestWithProject` (not under
`src/`); `other` is a payload implementing neither. -/
inductive RequestPayload where
  | projectAndCollection (project collection branch : String) : RequestPayload
  | projectOnly (project branch : String) : RequestPayload
  | other : RequestPayload

/-- `GetProjectAndBranchAndColl` (`request.go` 192-215); `none` is a nil
request.  Returns `(project, branch, collection)`. -/
def GetProjectAndBranchAndColl (req : Option RequestPayload) :
    String × String × String :=
  match req with
  | some (RequestPayload.projectAndCollection p c b) =>
    (p, if b ≠ "" then b else "main", c)
  | some (RequestPayload.projectOnly p b) =>
    (p, if b ≠ "" then b else "main", "")
  | some RequestPayload.other => ("", UnknownValue, "")
  | none => ("", UnknownValue, "")

/-! ## Concrete payloads and sample values used by witnesses -/

/-- The token payload of the spec's extraction property:
`{"sub":"s","https://tigris":{"nc":"ns1","ue":"e@x.com","r":"role1"}}`. -/
def c1Payload : String :=
  "\x7b\"sub\":\"s\",\"https://tigris\":\x7b\"nc\":\"ns1\",\"ue\":\"e@x.com\",\"r\":\"role1\"\x7d\x7d"

/-- A decodable payload with every vendor claim but no top-level `sub`:
`{"https://tigris":{"nc":"ns1","ue":"e@x.com","r":"role1"}}`. -/
def noSubPayload : String :=
  "\x7b\"https://tigris\":\x7b\"nc\":\"ns1\",\"ue\":\"e@x.com\",\"r\":\"role1\"\x7d\x7d"

/-- The parse tree of `noSubPayload`. -/
def noSubJson : Json :=
  Json.obj [("https://tigris",
    Json.obj [("nc", Json.str "ns1"), ("ue", Json.str "e@x.com"),
              ("r", Json.str "role1")])]

/-- A sample metadata value for witnesses. -/
def sampleMetadata : Metadata :=
  { accessToken := none, serviceName := "", methodInfo := ⟨"", false, false⟩,
    ns := "", namespaceName := "", IsHuman := false, project := "",
    branch := "", collection := "", Sub := "", Role := "" }

/-- A tenant directory whose lookups succeed with a nil tenant. -/
def getterOkNone : TenantGetter := fun _ => Except.ok none

/-- A tenant directory whose lookups fail. -/
def getterErr : TenantGetter := fun _ => Except.error ()

/-- A tenant directory that finds the tenant `Acme`. -/
def getterAcme : TenantGetter := fun _ => Except.ok (some ⟨"Acme"⟩)

/-- The read classification as the spec words it: an observability-prefixed
name, a management-prefixed name, or one of the six exact method names. -/
def readClassSpec (name : String) : Prop :=
  ObservabilityMethodPfx.isPrefixOf name = true
  ∨ ManagementMethodPfx.isPrefixOf name = true
  ∨ name = ReadMethodName ∨ name = SearchMethodName
  ∨ name = ListCollectionsMethodName ∨ name = ListProjectsMethodName
  ∨ name = DescribeCollectionMethodName ∨ name = DescribeDatabaseMethodName

/-! ## Splitting lemmas -/

/-- `breakFirst` finds nothing when the separator does not occur. -/
lemma breakFirst_of_not_mem {sep : Char} {cs : List Char} (h : sep ∉ cs) :
    breakFirst sep cs = none := by
  induction cs with
  | nil => rfl
  | cons c cs ih =>
    simp only [List.mem_cons, not_or] at h
    simp only [breakFirst, ih h.2]
    rw [if_neg (fun hc => h.1 hc.symm)]
    rfl

/-- `breakFirst` splits at the first separator occurrence. -/
lemma breakFirst_append {sep : Char} {p : List Char} (q : List Char) (h : sep ∉ p) :
    breakFirst sep (p ++ sep :: q) = some (p, q) := by
  induction p with
  | nil => simp [breakFirst]
  | cons c p ih =>
    simp only [List.mem_cons, not_or] at h
    simp only [List.cons_append, breakFirst]
    rw [if_neg (fun hc => h.1 hc.symm)]
    simp only [List.append_eq]
    rw [ih h.2]
    rfl

/-- A successful `breakFirst` decomposes its input around the separator. -/
lemma breakFirst_eq_some {sep : Char} {cs p q : List Char}
    (h : breakFirst sep cs = some (p, q)) : cs = p ++ sep :: q := by
  induction cs generalizing p q with
  | nil => exact Option.noConfusion h
  | cons c cs ih =>
    simp only [breakFirst] at h
    by_cases hc : c = sep
    · rw [if_pos hc] at h
      simp only [Option.some.injEq, Prod.mk.injEq] at h
      rw [← h.1, ← h.2, hc]
      rfl
    · rw [if_neg hc] at h
      cases hb : breakFirst sep cs with
      | none => rw [hb] at h; simp at h
      | some pq =>
        rw [hb] at h
        have hcs := ih (p := pq.1) (q := pq.2) (by rw [hb])
        simp only [Option.map_some', Option.some.injEq, Prod.mk.injEq] at h
        obtain ⟨h1, h2⟩ := h
        subst h1
        subst h2
        rw [hcs]
        rfl

/-- Splitting a separator-free list yields just that list. -/
lemma splitAux_no_sep {sep : Char} {cs : List Char} (h : sep ∉ cs) (k : Nat) :
    splitAux sep cs k = [cs] := by
  cases k with
  | zero => rfl
  | succ k => simp [splitAux, breakFirst_of_not_mem h]

/-- One splitting step around the first separator. -/
lemma splitAux_append {sep : Char} {p : List Char} (q : List Char) (k : Nat)
    (h : sep ∉ p) :
    splitAux sep (p ++ sep :: q) (Nat.succ k) = p :: splitAux sep q k := by
  simp [splitAux, breakFirst_append q h]

/-- `strings.SplitN(_, ".", 3)` on a three-segment token whose first two
segments are dot-free. -/
lemma splitAux_two {s1 m r : List Char} (h1 : '.' ∉ s1) (h2 : '.' ∉ m) :
    splitAux '.' (s1 ++ '.' :: (m ++ '.' :: r)) 2 = [s1, m, r] := by
  rw [show (2 : Nat) = Nat.succ 1 from rfl, splitAux_append _ _ h1,
    show (1 : Nat) = Nat.succ 0 from rfl, splitAux_append _ _ h2]
  rfl

/-- The character list of a dot-joined three-segment token. -/
lemma data_token (s1 m s3 : String) :
    (s1 ++ "." ++ m ++ "." ++ s3).data
      = s1.data ++ '.' :: (m.data ++ '.' :: s3.data) := by
  simp only [String.data_append]
  simp [List.append_assoc]

/-- `getMetadataFromToken` on a well-shaped token reduces to the middle
segment's extraction. -/
lemma getMetadataFromToken_split (s1 m s3 : String)
    (h1 : '.' ∉ s1.data) (h2 : '.' ∉ m.data) :
    getMetadataFromToken (s1 ++ "." ++ m ++ "." ++ s3)
      = extractFromMiddle m.data := by
  unfold getMetadataFromToken
  rw [data_token, splitAux_two h1 h2]

/-! ## Claim theorems -/

/-- C1: for every token of three dot-separated segments whose middle segment
is a base64 encoding — unpadded raw-std or padded standard — of the JSON
payload `{"sub":"s","https://tigris":{"nc":"ns1","ue":"e@x.com","r":"role1"}}`,
`getMetadataFromToken` returns `(namespace="ns1", is-human=true, subject="s",
role="role1")`.  The last two conjuncts pin the decoding order down: the
padded encoding fails the raw-std decode that is attempted first, so it is
the standard-decode fallback that handles it. -/
theorem getMetadataFromToken_valid_payload (s1 s3 : String)
    (h1 : '.' ∉ s1.data) :
    getMetadataFromToken (s1 ++ "." ++ encodeRawStd c1Payload ++ "." ++ s3)
      = ("ns1", true, "s", "role1")
    ∧ getMetadataFromToken (s1 ++ "." ++ encodeStd c1Payload ++ "." ++ s3)
      = ("ns1", true, "s", "role1")
    ∧ decodeRawStd (encodeRawStd c1Payload).data = some (strBytes c1Payload)
    ∧ decodeRawStd (encodeStd c1Payload).data = none
    ∧ decodeStd (encodeStd c1Payload).data = some (strBytes c1Payload) := by
  refine ⟨?_, ?_, ?_, ?_, ?_⟩
  · rw [getMetadataFromToken_split s1 _ s3 h1 (by decide)]
    rfl
  · rw [getMetadataFromToken_split s1 _ s3 h1 (by decide)]
    rfl
  · rfl
  · rfl
  · rfl

/-- Witness for C1 at the concrete token `h.<payload-base64>.sig`, under both
encodings. -/
theorem getMetadataFromToken_valid_payload_witness :
    getMetadataFromToken ("h" ++ "." ++ encodeRawStd c1Payload ++ "." ++ "sig")
      = ("ns1", true, "s", "role1")
    ∧ getMetadataFromToken ("h" ++ "." ++ encodeStd c1Payload ++ "." ++ "sig")
      = ("ns1", true, "s", "role1") :=
  ⟨(getMetadataFromToken_valid_payload "h" "sig" (by decide)).1,
   (getMetadataFromToken_valid_payload "h" "sig" (by decide)).2.1⟩

/-- The claim-lookup tail returns the failure defaults whenever the decoded
payload parses to JSON with no top-level string `sub` claim. -/
lemma metadataFromDecoded_no_sub (d : List Nat) (j : Json)
    (hparse : parseJson d = some j) (hsub : jGet j [Subject] = none) :
    metadataFromDecoded d = failureDefaults := by
  have hg : ∀ path, jsonGetString d path = jGet j path := by
    intro path
    unfold jsonGetString
    rw [hparse]
    rfl
  unfold metadataFromDecoded
  simp only [hg, hsub]
  cases h1 : jGet j [JWTTigrisClaimSpace, NamespaceCode] <;>
    cases h2 : jGet j [JWTTigrisClaimSpace ++ "/n", "code"] <;>
      simp [h1, h2]

/-- C2: for every token whose middle segment decodes and parses to a JSON
payload lacking the top-level `sub` claim, `getMetadataFromToken` returns the
full failure-default quadruple, whatever other claims are present. -/
theorem getMetadataFromToken_missing_sub (s1 mid s3 : String)
    (d : List Nat) (j : Json)
    (h1 : '.' ∉ s1.data) (h2 : '.' ∉ mid.data)
    (hdec : decodeMiddle mid.data = some d)
    (hparse : parseJson d = some j)
    (hsub : jGet j [Subject] = none) :
    getMetadataFromToken (s1 ++ "." ++ mid ++ "." ++ s3)
      = (UnknownValue, false, "", "") := by
  rw [getMetadataFromToken_split s1 mid s3 h1 h2]
  unfold extractFromMiddle
  rw [hdec]
  exact metadataFromDecoded_no_sub d j hparse hsub

/-- Witness for C2 at a concrete payload carrying the namespace code, user
email and role claims but no `sub`. -/
theorem getMetadataFromToken_missing_sub_witness :
    getMetadataFromToken ("h" ++ "." ++ encodeRawStd noSubPayload ++ "." ++ "sig")
      = (UnknownValue, false, "", "") :=
  getMetadataFromToken_missing_sub "h" (encodeRawStd noSubPayload) "sig"
    (strBytes noSubPayload) noSubJson
    (by decide) (by decide) rfl rfl rfl

/-- C3 counterexample: a token with four dot-separated segments (three dots)
whose second segment is a valid payload does NOT return the failure defaults —
`strings.SplitN(token, ".", 3)` folds the extra segment into the third part,
so only tokens with fewer than three segments short-circuit. -/
theorem getMetadataFromToken_four_segments_counterexample :
    ("h." ++ encodeRawStd c1Payload ++ ".s.t").data.count '.' = 3
    ∧ getMetadataFromToken ("h." ++ encodeRawStd c1Payload ++ ".s.t")
        ≠ (UnknownValue, false, "", "") := by
  constructor
  · rfl
  · intro hcontra
    have h : getMetadataFromToken ("h." ++ encodeRawStd c1Payload ++ ".s.t")
        = ("ns1", true, "s", "role1") := rfl
    rw [h] at hcontra
    exact absurd (congrArg Prod.fst hcontra) (by decide)

/-- C3 amended: `getMetadataFromToken` returns the failure defaults for every
token with fewer than three dot-separated segments (at most one dot); a token
with more than three segments is processed as three, with everything after
the second dot folded into the (ignored) third segment. -/
theorem getMetadataFromToken_segments_amended :
    (∀ t : String, t.data.count '.' ≤ 1 →
      getMetadataFromToken t = (UnknownValue, false, "", ""))
    ∧ (∀ s1 m s3 s3' : String, '.' ∉ s1.data → '.' ∉ m.data →
      getMetadataFromToken (s1 ++ "." ++ m ++ "." ++ s3)
        = getMetadataFromToken (s1 ++ "." ++ m ++ "." ++ s3')) := by
  constructor
  · intro t h
    unfold getMetadataFromToken
    cases hb : breakFirst '.' t.data with
    | none =>
      have hs : splitAux '.' t.data 2 = [t.data] := by
        rw [show (2 : Nat) = Nat.succ 1 from rfl]
        simp [splitAux, hb]
      rw [hs]
      rfl
    | some pq =>
      obtain ⟨p, q⟩ := pq
      have hcs := breakFirst_eq_some hb
      have hcount : q.count '.' = 0 := by
        rw [hcs, List.count_append, List.count_cons_self] at h
        omega
      have hq : '.' ∉ q := List.count_eq_zero.mp hcount
      have hs : splitAux '.' t.data 2 = [p, q] := by
        rw [show (2 : Nat) = Nat.succ 1 from rfl]
        simp [splitAux, hb, breakFirst_of_not_mem hq]
      rw [hs]
      rfl
  · intro s1 m s3 s3' h1 h2
    rw [getMetadataFromToken_split s1 m s3 h1 h2,
      getMetadataFromToken_split s1 m s3' h1 h2]

/-- Witness for the amended C3: a two-segment token yields the defaults, and
the third segment (dots included) never influences the result. -/
theorem getMetadataFromToken_segments_amended_witness :
    getMetadataFromToken "header.payload" = (UnknownValue, false, "", "")
    ∧ getMetadataFromToken ("h" ++ "." ++ "m" ++ "." ++ "s.t")
        = getMetadataFromToken ("h" ++ "." ++ "m" ++ "." ++ "x") :=
  ⟨getMetadataFromToken_segments_amended.1 "header.payload" (by decide),
   getMetadataFromToken_segments_amended.2 "h" "m" "s.t" "x"
     (by decide) (by decide)⟩

/-- C4: `SetNamespace` short-circuits without consulting the tenant directory
when isolation and authentication are both disabled (display name is the
default namespace name) and, otherwise, when the identifier is the unknown
sentinel (display name is the sentinel).  Never consulting the directory is
expressed as the result being identical for any two directories `g`, `g'`. -/
theorem setNamespace_short_circuit (cfg : Config) (g g' : TenantGetter)
    (m : Metadata) (ns : String) :
    (cfg.enableNamespaceIsolation = false → cfg.authEnabled = false →
      Metadata.SetNamespace cfg g m ns = Metadata.SetNamespace cfg g' m ns
      ∧ (Metadata.SetNamespace cfg g m ns).namespaceName = DefaultNamespaceName)
    ∧ ((cfg.enableNamespaceIsolation = true ∨ cfg.authEnabled = true) →
      Metadata.SetNamespace cfg g m UnknownValue
        = Metadata.SetNamespace cfg g' m UnknownValue
      ∧ (Metadata.SetNamespace cfg g m UnknownValue).namespaceName
        = UnknownValue) := by
  constructor
  · intro hi ha
    unfold Metadata.SetNamespace
    rw [hi, ha]
    simp
  · intro hd
    unfold Metadata.SetNamespace
    rcases hd with h | h <;> rw [h] <;> simp

/-- Witness for C4: both short-circuit branches at concrete inputs. -/
theorem setNamespace_short_circuit_witness :
    (Metadata.SetNamespace ⟨false, false⟩ getterAcme sampleMetadata "ns-x").namespaceName
      = DefaultNamespaceName
    ∧ (Metadata.SetNamespace ⟨true, false⟩ getterAcme sampleMetadata UnknownValue).namespaceName
      = UnknownValue :=
  ⟨((setNamespace_short_circuit ⟨false, false⟩ getterAcme getterErr
      sampleMetadata "ns-x").1 rfl rfl).2,
   ((setNamespace_short_circuit ⟨true, false⟩ getterAcme getterErr
      sampleMetadata UnknownValue).2 (Or.inl rfl)).2⟩

/-- C5: when `SetNamespace` does consult the directory, a lookup error or a
nil tenant degrades the display name to the unknown sentinel (no error is
surfaced: the function is total and still records the requested identifier),
and a found tenant supplies its configured name. -/
theorem setNamespace_lookup (cfg : Config) (g : TenantGetter) (m : Metadata)
    (ns : String)
    (hcfg : cfg.enableNamespaceIsolation = true ∨ cfg.authEnabled = true)
    (hns : ns ≠ UnknownValue) :
    (Metadata.SetNamespace cfg g m ns).ns = ns
    ∧ (∀ e, g ns = Except.error e →
        (Metadata.SetNamespace cfg g m ns).namespaceName = UnknownValue)
    ∧ (g ns = Except.ok none →
        (Metadata.SetNamespace cfg g m ns).namespaceName = UnknownValue)
    ∧ (∀ t, g ns = Except.ok (some t) →
        (Metadata.SetNamespace cfg g m ns).namespaceName = t.name) := by
  have hcond : (!cfg.enableNamespaceIsolation && !cfg.authEnabled) = false := by
    rcases hcfg with h | h <;> rw [h] <;> simp
  unfold Metadata.SetNamespace
  rw [hcond]
  refine ⟨?_, ?_, ?_, ?_⟩
  · cases hg : g ns with
    | error e => simp [hns, hg]
    | ok t => cases t <;> simp [hns, hg]
  · intro e he
    simp [hns, he]
  · intro he
    simp [hns, he]
  · intro t ht
    simp [hns, ht]

/-- Witness for C5: error, nil-tenant and found-tenant lookups at concrete
inputs. -/
theorem setNamespace_lookup_witness :
    (Metadata.SetNamespace ⟨true, true⟩ getterErr sampleMetadata "ns1").namespaceName
      = UnknownValue
    ∧ (Metadata.SetNamespace ⟨true, true⟩ getterOkNone sampleMetadata "ns1").namespaceName
      = UnknownValue
    ∧ (Metadata.SetNamespace ⟨true, true⟩ getterAcme sampleMetadata "ns1").namespaceName
      = "Acme"
    ∧ (Metadata.SetNamespace ⟨true, true⟩ getterAcme sampleMetadata "ns1").ns = "ns1" :=
  ⟨(setNamespace_lookup ⟨true, true⟩ getterErr sampleMetadata "ns1"
      (Or.inl rfl) (by decide)).2.1 () rfl,
   (setNamespace_lookup ⟨true, true⟩ getterOkNone sampleMetadata "ns1"
      (Or.inl rfl) (by decide)).2.2.1 rfl,
   (setNamespace_lookup ⟨true, true⟩ getterAcme sampleMetadata "ns1"
      (Or.inl rfl) (by decide)).2.2.2 ⟨"Acme"⟩ rfl,
   (setNamespace_lookup ⟨true, true⟩ getterAcme sampleMetadata "ns1"
      (Or.inl rfl) (by decide)).1⟩

/-- C6: `isRead`/`isWrite` is a total, mutually exclusive partition of method
names, and `isRead` holds exactly for observability-prefixed names,
management-prefixed names, and the six fixed read method names. -/
theorem isRead_isWrite_partition (name : String) :
    ((isRead name = true) ↔ readClassSpec name)
    ∧ ((isWrite name = true) ↔ ¬ readClassSpec name)
    ∧ isRead name ≠ isWrite name := by
  have h1 : (isRead name = true) ↔ readClassSpec name := by
    unfold isRead readClassSpec
    split_ifs with hc1 hc2 hc3 hc4 hc5 <;> simp_all <;> tauto
  refine ⟨h1, ?_, ?_⟩
  · rw [← h1]
    unfold isWrite
    cases isRead name <;> simp
  · unfold isWrite
    cases isRead name <;> simp

/-- C7: routing fields derived from the request payload: project and
collection are taken where the payload exposes them, the branch defaults to
`main` exactly when a project-bearing payload has an empty branch, and a
payload exposing no project (or a nil payload) leaves project and collection
empty with the unknown placeholder as branch. -/
theorem getProjectAndBranchAndColl_routing :
    (∀ p c b, GetProjectAndBranchAndColl
        (some (RequestPayload.projectAndCollection p c b))
      = (p, (if b = "" then "main" else b), c))
    ∧ (∀ p b, GetProjectAndBranchAndColl (some (RequestPayload.projectOnly p b))
      = (p, (if b = "" then "main" else b), ""))
    ∧ GetProjectAndBranchAndColl (some RequestPayload.other)
      = ("", UnknownValue, "")
    ∧ GetProjectAndBranchAndColl none = ("", UnknownValue, "") := by
  refine ⟨?_, ?_, rfl, rfl⟩
  · intro p c b
    unfold GetProjectAndBranchAndColl
    by_cases hb : b = "" <;> simp [hb]
  · intro p b
    unfold GetProjectAndBranchAndColl
    by_cases hb : b = "" <;> simp [hb]

/-- C8: `IsAdminApi` holds exactly on the fixed four-element admin method
set; in particular the create-namespace method is admin. -/
theorem isAdminApi_members (name : String) :
    (IsAdminApi name = true ↔
      (name = CreateNamespaceMethodName ∨ name = ListNamespacesMethodName
        ∨ name = DeleteNamespaceMethodName ∨ name = VerifyInvitationMethodName))
    ∧ IsAdminApi CreateNamespaceMethodName = true := by
  constructor
  · unfold IsAdminApi adminMethods
    rw [List.elem_iff]
    simp
  · rfl

/-- C9: every accessor on a call scope that never had metadata attached fails
with a typed NotFound error (and `IsHumanUser` returns `false` instead of
failing). -/
theorem accessors_not_found (ctx : Context) (h : ctx.metadataValue = none) :
    GetRequestMetadataFromContext ctx
      = Except.error (errNotFound "Metadata not found")
    ∧ GetAccessToken ctx = Except.error (errNotFound "Access token not found")
    ∧ GetCurrentSub ctx = Except.error (errNotFound "Access token not found")
    ∧ GetNamespace ctx = Except.error ErrNamespaceNotFound
    ∧ ErrNamespaceNotFound.code = ErrCode.notFound
    ∧ (errNotFound "Metadata not found").code = ErrCode.notFound
    ∧ (errNotFound "Access token not found").code = ErrCode.notFound
    ∧ IsHumanUser ctx = false := by
  unfold GetCurrentSub GetRequestMetadataFromContext GetAccessToken
    GetNamespace IsHumanUser
  rw [h]
  exact ⟨rfl, rfl, rfl, rfl, rfl, rfl, rfl, rfl⟩

/-- Witness for C9: a concrete empty call scope. -/
theorem accessors_not_found_witness :
    GetRequestMetadataFromContext ⟨none, ""⟩
      = Except.error (errNotFound "Metadata not found")
    ∧ IsHumanUser ⟨none, ""⟩ = false :=
  ⟨(accessors_not_found ⟨none, ""⟩ rfl).1,
   (accessors_not_found ⟨none, ""⟩ rfl).2.2.2.2.2.2.2⟩

/-- C10: with namespace isolation disabled, `GetMetadataFromHeader` returns
the default-namespace quadruple for every call scope — the Authorization
header is never consulted, so any two scopes give the identical result; and
for any configuration, a header without an embedded space also yields the
default-namespace quadruple (not the unknown sentinel). -/
theorem getMetadataFromHeader_disabled_or_spaceless (cfg : Config) :
    (cfg.enableNamespaceIsolation = false →
      ∀ ctx : Context, GetMetadataFromHeader cfg ctx
        = (DefaultNamespaceName, false, "", ""))
    ∧ (∀ ctx : Context, ' ' ∉ ctx.authorizationHeader.data →
      GetMetadataFromHeader cfg ctx = (DefaultNamespaceName, false, "", "")) := by
  constructor
  · intro h ctx
    unfold GetMetadataFromHeader
    rw [h]
    rfl
  · intro ctx h
    cases hc : cfg.enableNamespaceIsolation
    · simp [GetMetadataFromHeader, hc]
    · simp [GetMetadataFromHeader, hc, getTokenFromHeader, splitAux_no_sep h 1]

/-- Witness for C10: a disabled-isolation scope with a well-formed header,
and an enabled-isolation scope whose header has no space. -/
theorem getMetadataFromHeader_disabled_or_spaceless_witness :
    GetMetadataFromHeader ⟨false, true⟩ ⟨none, "Bearer tok"⟩
      = (DefaultNamespaceName, false, "", "")
    ∧ GetMetadataFromHeader ⟨true, true⟩ ⟨none, "nospace"⟩
      = (DefaultNamespaceName, false, "", "") :=
  ⟨(getMetadataFromHeader_disabled_or_spaceless ⟨false, true⟩).1 rfl
      ⟨none, "Bearer tok"⟩,
   (getMetadataFromHeader_disabled_or_spaceless ⟨true, true⟩).2
      ⟨none, "nospace"⟩ (by decide)⟩

end Tigris
